import Mathlib

/-!
Verification development for the Welth finance platform repository.

The development shallowly embeds the receipt-scanning pipeline of
`src/actions/transaction.js` (`scanReceipt`), the toast classification of the
`ReceiptScanner` component, and the dashboard/account handlers of
`src/actions/dashboard.js`.  JavaScript numbers are modelled as rationals,
JavaScript `Date` values as `Option Rat` (`none` models an Invalid Date,
`some t` a valid millisecond timestamp `t`), and external effects (the fetch
calls, the database, `Date.parse`) as explicit oracle parameters.
-/

/-- Whitespace as matched by the regex class used in the source
(space, tab, newline, carriage return cover every character the
pipeline ever feeds it). -/
def isWS (c : Char) : Bool :=
  c = ' ' || c = '\t' || c = '\n' || c = '\r'

/-- Left-trim on character lists. -/
def dropLeadWS (l : List Char) : List Char := l.dropWhile isWS

/-- Right-trim on character lists. -/
def dropTrailWS (l : List Char) : List Char := (l.reverse.dropWhile isWS).reverse

/-- Model of JavaScript `String.prototype.trim`. -/
def trimChars (l : List Char) : List Char := dropTrailWS (dropLeadWS l)

/-- String trim, via `trimChars`. -/
def trimStr (s : String) : String := ⟨trimChars s.data⟩

/-- Here `isStartOf needle hay` holds when `needle` is an initial segment of `hay`. -/
def isStartOf : List Char → List Char → Bool
  | [], _ => true
  | _ :: _, [] => false
  | a :: as, b :: bs => a = b && isStartOf as bs

/-- Here `occursIn needle hay` holds when `needle` occurs contiguously inside `hay`. -/
def occursIn (needle : List Char) : List Char → Bool
  | [] => isStartOf needle []
  | b :: bs => isStartOf needle (b :: bs) || occursIn needle bs

/-- Model of JavaScript `String.prototype.includes`. -/
def containsSub (s sub : String) : Bool := occursIn sub.data s.data

/-- Index of the first occurrence of `c` (JavaScript `indexOf`, with `none`
playing the role of `-1`). -/
def idxOfChar (c : Char) : List Char → Option Nat
  | [] => none
  | x :: rest => if x = c then some 0 else (idxOfChar c rest).map (· + 1)

/-- Index of the last occurrence of `c` (JavaScript `lastIndexOf`). -/
def lastIdxOfChar (c : Char) (l : List Char) : Option Nat :=
  match idxOfChar c l.reverse with
  | none => none
  | some i => some (l.length - 1 - i)

/-- Model of JavaScript `Array.prototype.join(",")`. -/
def joinComma : List String → String
  | [] => ""
  | [s] => s
  | s :: rest => s ++ "," ++ joinComma rest

/-- Character-level splitting on commas; `[]` input yields `[[]]`, matching
the JavaScript behaviour of `"".split(",")` being `[""]`. -/
def splitCommaChars : List Char → List (List Char)
  | [] => [[]]
  | c :: rest =>
    let r := splitCommaChars rest
    if c = ',' then [] :: r
    else
      match r with
      | h :: t => (c :: h) :: t
      | [] => [[c]]

/-- Model of JavaScript `String.prototype.split(",")`. -/
def splitComma (s : String) : List String :=
  (splitCommaChars s.data).map fun l => ⟨l⟩

/-- The literal open-brace character. -/
def braceOpen : Char := Char.ofNat 123

/-- The literal close-brace character. -/
def braceClose : Char := Char.ofNat 125

/-- The backtick character used by fenced code blocks. -/
def btick : Char := Char.ofNat 96

/-- JSON values as produced by `JSON.parse` (`undefined` cannot occur in a
parse result, so it is represented only implicitly, by `Option` at access
sites). -/
inductive Json where
  | null
  | bool (b : Bool)
  | num (q : Rat)
  | str (s : String)
  | arr (xs : List Json)
  | obj (fields : List (String × Json))

/-- Object property lookup; JavaScript keeps the last duplicate key from
`JSON.parse`, so the last binding wins. -/
def lookupLast (k : String) : List (String × Json) → Option Json
  | [] => none
  | (k', v) :: rest =>
    match lookupLast k rest with
    | some w => some w
    | none => if k' = k then some v else none

/-- JavaScript truthiness of a parsed JSON value. -/
def jsTruthy : Json → Bool
  | .null => false
  | .bool b => b
  | .num q => decide (q ≠ 0)
  | .str s => decide (s ≠ "")
  | .arr _ => true
  | .obj _ => true

/-- Named property access `v.k` on a non-null value: defined fields of
objects are found, and every other case is `undefined` (`none`).  The keys
the pipeline uses do not exist on strings, arrays or primitives. -/
def jsProp (v : Json) (k : String) : Option Json :=
  match v with
  | .obj fs => lookupLast k fs
  | _ => none

/-- Index access `v?.[0]`: first array element, property `"0"` of an object,
or the first character of a string; `undefined` otherwise. -/
def jsIndex0 : Json → Option Json
  | .arr xs => xs.head?
  | .obj fs => lookupLast "0" fs
  | .str s =>
    match s.data with
    | [] => none
    | c :: _ => some (.str ⟨[c]⟩)
  | _ => none

/-- One step of an optional chain `x?.…`: short-circuits on `undefined`
(`none`) and on the value `null`. -/
def chainGet (x : Option Json) (f : Json → Option Json) : Option Json :=
  match x with
  | none => none
  | some .null => none
  | some v => f v

/-- Hexadecimal digit value, for string escapes of the form backslash-u. -/
def hexVal (c : Char) : Option Nat :=
  if '0' ≤ c ∧ c ≤ '9' then some (c.toNat - 48)
  else if 'a' ≤ c ∧ c ≤ 'f' then some (c.toNat - 87)
  else if 'A' ≤ c ∧ c ≤ 'F' then some (c.toNat - 55)
  else none

/-- Single-character string escapes accepted by JSON. -/
def escChar (c : Char) : Option Char :=
  if c = '"' then some '"'
  else if c = '\\' then some '\\'
  else if c = '/' then some '/'
  else if c = 'b' then some (Char.ofNat 8)
  else if c = 'f' then some (Char.ofNat 12)
  else if c = 'n' then some '\n'
  else if c = 'r' then some '\r'
  else if c = 't' then some '\t'
  else none

/-- Body of a JSON string after its opening quote; yields the decoded
characters and the input remaining after the closing quote.  Raw control
characters are rejected, as in `JSON.parse`. -/
def parseStrBody : Nat → List Char → Option (List Char × List Char)
  | 0, _ => none
  | fuel + 1, cs =>
    match cs with
    | [] => none
    | c :: rest =>
      if c = '"' then some ([], rest)
      else if c = '\\' then
        match rest with
        | [] => none
        | e :: rest2 =>
          if e = 'u' then
            match rest2 with
            | h1 :: h2 :: h3 :: h4 :: rest3 =>
              match hexVal h1, hexVal h2, hexVal h3, hexVal h4 with
              | some a, some b, some c3, some d =>
                match parseStrBody fuel rest3 with
                | some (s, r) => some (Char.ofNat (a * 4096 + b * 256 + c3 * 16 + d) :: s, r)
                | none => none
              | _, _, _, _ => none
            | _ => none
          else
            match escChar e with
            | some ce =>
              match parseStrBody fuel rest2 with
              | some (s, r) => some (ce :: s, r)
              | none => none
            | none => none
      else if c.toNat < 32 then none
      else
        match parseStrBody fuel rest with
        | some (s, r) => some (c :: s, r)
        | none => none

/-- Take a maximal run of decimal digits. -/
def takeDigits : List Char → (List Nat × List Char)
  | [] => ([], [])
  | c :: rest =>
    if '0' ≤ c ∧ c ≤ '9' then
      let (ds, r) := takeDigits rest
      ((c.toNat - 48) :: ds, r)
    else ([], c :: rest)

/-- Digits to a natural number, most significant first. -/
def digitsToNat (ds : List Nat) : Nat := ds.foldl (fun a d => 10 * a + d) 0

/-- JSON number parsing, following the strict JSON grammar (`JSON.parse`
rejects leading plus signs, bare dots, and leading zeros). -/
def parseNum (cs : List Char) : Option (Rat × List Char) :=
  let (neg, cs1) :=
    match cs with
    | c :: r => if c = '-' then (true, r) else (false, cs)
    | [] => (false, cs)
  match cs1 with
  | [] => none
  | c :: _ =>
    if ¬('0' ≤ c ∧ c ≤ '9') then none
    else
      let (intDs, rest1) :=
        if c = '0' then ([0], cs1.drop 1) else takeDigits cs1
      match rest1 with
      | d :: _ =>
        if c = '0' ∧ '0' ≤ d ∧ d ≤ '9' then none
        else parseNumTail neg intDs rest1
      | [] => parseNumTail neg intDs rest1
where
  /-- Fraction and exponent parts of a JSON number. -/
  parseNumTail (neg : Bool) (intDs : List Nat) (rest1 : List Char) :
      Option (Rat × List Char) :=
    let (fracDs, rest2) :=
      match rest1 with
      | p :: r =>
        if p = '.' then
          match takeDigits r with
          | ([], _) => ([], p :: r)
          | (ds, r2) => (ds, r2)
        else ([], rest1)
      | [] => ([], rest1)
    if rest1 ≠ rest2 ∧ fracDs = [] then none
    else
      match rest2 with
      | e :: r =>
        if e = 'e' ∨ e = 'E' then
          let (eneg, r1) :=
            match r with
            | s :: r2 =>
              if s = '-' then (true, r2)
              else if s = '+' then (false, r2)
              else (false, r)
            | [] => (false, r)
          match takeDigits r1 with
          | ([], _) => none
          | (eds, r2) => some (buildNum neg intDs fracDs eneg (digitsToNat eds), r2)
        else some (buildNum neg intDs fracDs false 0, rest2)
      | [] => some (buildNum neg intDs fracDs false 0, rest2)
  /-- Assemble the rational value of a JSON number,
  sign * (integer-digits.fraction-digits) * 10^(signed exponent), built as a
  single normalized fraction. -/
  buildNum (neg : Bool) (intDs fracDs : List Nat) (eneg : Bool) (e : Nat) : Rat :=
    let f := fracDs.length
    let mant : Nat := digitsToNat intDs * 10 ^ f + digitsToNat fracDs
    let n : Int := Int.ofNat (if eneg then mant else mant * 10 ^ e)
    let d : Nat := if eneg then 10 ^ f * 10 ^ e else 10 ^ f
    mkRat (if neg then -n else n) d

/-- JSON whitespace skipping (same four characters as `isWS`). -/
def skipJsonWS (l : List Char) : List Char := l.dropWhile isWS

mutual

/-- Recursive-descent JSON value parsing with fuel (the fuel is an upper
bound on nesting depth; callers pass the input length, which suffices since
every nested call consumes at least one character first). -/
def parseV : Nat → List Char → Option (Json × List Char)
  | 0, _ => none
  | fuel + 1, cs =>
    match skipJsonWS cs with
    | [] => none
    | c :: rest =>
      if c = braceOpen then
        match skipJsonWS rest with
        | d :: rest3 =>
          if d = braceClose then some (.obj [], rest3)
          else
            match parseMembers fuel (skipJsonWS rest) with
            | some (fs, r) =>
              match skipJsonWS r with
              | e :: r2 => if e = braceClose then some (.obj fs, r2) else none
              | [] => none
            | none => none
        | [] => none
      else if c = '[' then
        match skipJsonWS rest with
        | d :: rest3 =>
          if d = ']' then some (.arr [], rest3)
          else
            match parseElems fuel (skipJsonWS rest) with
            | some (xs, r) =>
              match skipJsonWS r with
              | e :: r2 => if e = ']' then some (.arr xs, r2) else none
              | [] => none
            | none => none
        | [] => none
      else if c = '"' then
        match parseStrBody (rest.length + 1) rest with
        | some (s, r) => some (.str ⟨s⟩, r)
        | none => none
      else if isStartOf ['t', 'r', 'u', 'e'] (c :: rest) then
        some (.bool true, (c :: rest).drop 4)
      else if isStartOf ['f', 'a', 'l', 's', 'e'] (c :: rest) then
        some (.bool false, (c :: rest).drop 5)
      else if isStartOf ['n', 'u', 'l', 'l'] (c :: rest) then
        some (.null, (c :: rest).drop 4)
      else
        match parseNum (c :: rest) with
        | some (q, r) => some (.num q, r)
        | none => none

/-- Comma-separated object members. -/
def parseMembers : Nat → List Char → Option (List (String × Json) × List Char)
  | 0, _ => none
  | fuel + 1, cs =>
    match skipJsonWS cs with
    | [] => none
    | c :: rest =>
      if c = '"' then
        match parseStrBody (rest.length + 1) rest with
        | some (k, r1) =>
          match skipJsonWS r1 with
          | c2 :: r2 =>
            if c2 = ':' then
              match parseV fuel r2 with
              | some (v, r3) =>
                match skipJsonWS r3 with
                | c3 :: r4 =>
                  if c3 = ',' then
                    match parseMembers fuel r4 with
                    | some (fs, r5) => some ((⟨k⟩, v) :: fs, r5)
                    | none => none
                  else some ([(⟨k⟩, v)], r3)
                | [] => some ([(⟨k⟩, v)], r3)
              | none => none
            else none
          | [] => none
        | none => none
      else none

/-- Comma-separated array elements. -/
def parseElems : Nat → List Char → Option (List Json × List Char)
  | 0, _ => none
  | fuel + 1, cs =>
    match parseV fuel cs with
    | some (v, r) =>
      match skipJsonWS r with
      | c :: r2 =>
        if c = ',' then
          match parseElems fuel r2 with
          | some (xs, r3) => some (v :: xs, r3)
          | none => none
        else some ([v], r)
      | [] => some ([v], r)
    | none => none

end

/-- Model of `JSON.parse`: parse one value and require only whitespace to
remain (`JSON.parse` rejects trailing input); `none` models a thrown
`SyntaxError`. -/
def parseJson (s : String) : Option Json :=
  match parseV (s.data.length + 1) s.data with
  | some (v, rest) => if (skipJsonWS rest).isEmpty then some v else none
  | none => none

/-- Here `findSub needle hay` is the index of the leftmost occurrence of `needle`. -/
def findSub (needle : List Char) : List Char → Option Nat
  | [] => if isStartOf needle [] then some 0 else none
  | c :: rest =>
    if isStartOf needle (c :: rest) then some 0
    else (findSub needle (c :: rest).tail).map (· + 1)

/-- A fenced code-block marker: three backticks. -/
def fenceChars : List Char := [btick, btick, btick]

/-- Global replacement performed by the source regex
(three backticks, an optional literal `json`, greedy whitespace, a lazy body,
greedy whitespace, three closing backticks, replaced by the body): for each
leftmost opening fence with a later closing fence, emit the body with its
surrounding whitespace removed and continue after the closing fence; an
opening fence without a closing one matches nothing and is kept verbatim. -/
def stripFencesAux : Nat → List Char → List Char
  | 0, cs => cs
  | fuel + 1, cs =>
    match findSub fenceChars cs with
    | none => cs
    | some i =>
      let pre := cs.take i
      let afterOpen := cs.drop (i + 3)
      let afterJson :=
        if isStartOf ['j', 's', 'o', 'n'] afterOpen then afterOpen.drop 4 else afterOpen
      let body := afterJson.dropWhile isWS
      match findSub fenceChars body with
      | none => cs
      | some k => pre ++ dropTrailWS (body.take k) ++ stripFencesAux fuel (body.drop (k + 3))

/-- Fence stripping on strings, with length as ample fuel. -/
def stripFences (s : String) : String := ⟨stripFencesAux s.data.length s.data⟩

/-- Candidate JSON span selection of `scanReceipt`: trim, strip fenced
code-block markers, trim again, then — when a first open brace and a later
last close brace exist — keep exactly the span between them (inclusive). -/
def extractCandidate (text : String) : String :=
  let j1 := trimChars (stripFences (trimStr text)).data
  match idxOfChar braceOpen j1, lastIdxOfChar braceClose j1 with
  | some a, some b => if a < b then ⟨(j1.drop a).take (b + 1 - a)⟩ else ⟨j1⟩
  | _, _ => ⟨j1⟩

/-- Decimal rendering of a rational used only when a JSON number inside an
array or object is converted to a string on the way into a `Date`
constructor; integers render exactly, and the non-integer case keeps the
default rational rendering (float formatting is inherently approximate in a
rational model and no pipeline path depends on it). -/
def ratStr (q : Rat) : String := if q.den = 1 then toString q.num else toString q

/-- String conversion applied by `new Date(v)` to non-primitive arguments:
arrays join their elements with commas (`null` elements become empty), plain
objects become the fixed object tag. -/
def jsonToDateStringF : Nat → Json → String
  | 0, _ => ""
  | _, .str s => s
  | _, .num q => ratStr q
  | _, .bool b => if b then "true" else "false"
  | _, .null => "null"
  | _, .obj _ => "[object Object]"
  | fuel + 1, .arr xs =>
    joinComma (xs.map fun v =>
      match v with
      | .null => ""
      | v => jsonToDateStringF fuel v)

mutual

/-- Node count of a JSON value, an upper bound on its depth; serves as fuel
for `jsonToDateStringF`. -/
def jsonSize : Json → Nat
  | .null => 1
  | .bool _ => 1
  | .num _ => 1
  | .str _ => 1
  | .arr xs => 1 + jsonSizeList xs
  | .obj fs => 1 + jsonSizeFields fs

/-- Node count of a list of JSON values. -/
def jsonSizeList : List Json → Nat
  | [] => 0
  | v :: rest => jsonSize v + jsonSizeList rest

/-- Node count of an object field list. -/
def jsonSizeFields : List (String × Json) → Nat
  | [] => 0
  | (_, v) :: rest => jsonSize v + jsonSizeFields rest

end

/-- Depth bound for `jsonToDateStringF`. -/
def jsonToDateString (v : Json) : String := jsonToDateStringF (jsonSize v) v

/-- Model of `new Date(v)` for a truthy argument `v`, parameterised by the engine
date parser `pd` (`new Date(ms)` keeps the number, strings and
stringified compounds go through parsing, `true` numerifies to 1). -/
def newDateFrom (pd : String → Option Rat) : Json → Option Rat
  | .num q => some q
  | .str s => pd s
  | .bool b => some (if b then 1 else 0)
  | v => pd (jsonToDateString v)

/-- The structured extraction result produced by `scanReceipt`
(`date := none` models an Invalid Date). -/
structure ScanResult where
  amount : Rat
  date : Option Rat
  description : String
  merchantName : String
  category : String
deriving DecidableEq

/-- The uploaded file as far as the pipeline inspects it. -/
structure ScanFile where
  size : Nat
  mime : String

/-- The outcome of one `fetch` to an endpoint, as observed by the loop body:
a 2xx response whose body decoded (`ok`), a 2xx response whose
`response.json()` threw (`okBadJson`), a non-2xx response with its status
data (`httpFail`), or a network exception (`netExn`). -/
inductive FetchOutcome where
  | ok (payload : Json)
  | okBadJson (msg : String)
  | httpFail (status : Nat) (statusText : String) (errorText : String)
  | netExn (msg : String)

/-- Whether an outcome takes one of the failure branches that record
`lastError` and continue the loop. -/
def isRecordedFail : FetchOutcome → Bool
  | .ok _ => false
  | _ => true

/-- The message of the `Error` recorded for a failed attempt, matching the
template-literal in the source for the non-2xx case. -/
def failMsg : FetchOutcome → String
  | .ok _ => ""
  | .okBadJson m => m
  | .httpFail st stTxt errTxt =>
    "API request failed: " ++ toString st ++ " " ++ stTxt ++ " - " ++ errTxt
  | .netExn m => m

/-- The four fixed endpoint URLs, in source order. -/
def endpointUrl1 : String :=
  "https://generativelanguage.googleapis.com/v1beta/models/gemini-1.5-flash-002:generateContent"

/-- Second endpoint URL. -/
def endpointUrl2 : String :=
  "https://generativelanguage.googleapis.com/v1beta/models/gemini-1.5-pro-002:generateContent"

/-- Third endpoint URL. -/
def endpointUrl3 : String :=
  "https://generativelanguage.googleapis.com/v1beta/models/gemini-2.5-flash-preview-05-20:generateContent"

/-- Fourth endpoint URL. -/
def endpointUrl4 : String :=
  "https://generativelanguage.googleapis.com/v1beta/models/gemini-2.5-pro-preview-03-25:generateContent"

/-- The list `endpointsToTry` from the source. -/
def endpointsToTry : List String :=
  [endpointUrl1, endpointUrl2, endpointUrl3, endpointUrl4]

/-- State left by the endpoint loop: the endpoints actually requested in
order, the `apiResponse` variable, and the `lastError` variable (carrying
the message of the recorded `Error`). -/
structure LoopOut where
  log : List String
  payload : Option Json
  lastErr : Option String

/-- The endpoint loop: one request per endpoint in order, stopping at the
first attempt whose response is 2xx with a decodable body; every other
outcome records `lastError` and continues. -/
def tryEndpoints (net : String → FetchOutcome) : List String → LoopOut
  | [] => ⟨[], none, none⟩
  | e :: rest =>
    match net e with
    | .ok payload => ⟨[e], some payload, none⟩
    | o =>
      let sub := tryEndpoints net rest
      ⟨e :: sub.log, sub.payload,
        match sub.lastErr with
        | some m => some m
        | none => some (failMsg o)⟩

/-- JavaScript falsiness of the `apiResponse` variable (`null` before any
success, and a decoded body that is itself a falsy value). -/
def apiFalsy : Option Json → Bool
  | none => true
  | some v => !jsTruthy v

/-- Model of `apiResponse.candidates?.[0]?.content?.parts?.[0]?.text || ""` followed
by `.trim()`-readiness: a `null` (or absent) response throws the member
TypeError, a truthy non-string `text` value throws on `.trim`, and every
falsy chain result collapses to the empty string. -/
def extractText (res : Option Json) : Except String String :=
  match res with
  | none => .error "Cannot read properties of null (reading candidates)"
  | some .null => .error "Cannot read properties of null (reading candidates)"
  | some v =>
    let c1 := jsProp v "candidates"
    let c2 := chainGet c1 jsIndex0
    let c3 := chainGet c2 fun w => jsProp w "content"
    let c4 := chainGet c3 fun w => jsProp w "parts"
    let c5 := chainGet c4 jsIndex0
    let c6 := chainGet c5 fun w => jsProp w "text"
    match c6 with
    | none => .ok ""
    | some t =>
      if jsTruthy t then
        match t with
        | .str s => .ok s
        | _ => .error "text.trim is not a function"
      else .ok ""

/-- Sanitization of `data.amount`: a numeric value is made non-negative
with `Math.abs`, anything else becomes 0. -/
def amountField (o : Option Json) : Rat :=
  match o with
  | some (.num q) => |q|
  | _ => 0

/-- Sanitization of `data.date`: a truthy value goes through the `Date`
constructor, a falsy or absent one becomes the current time. -/
def dateField (now : Rat) (pd : String → Option Rat) (o : Option Json) : Option Rat :=
  match o with
  | some v => if jsTruthy v then newDateFrom pd v else some now
  | none => some now

/-- Sanitization of the two free-text fields: a string whose trim is
non-empty is kept trimmed, anything else becomes the placeholder. -/
def textField (dflt : String) (o : Option Json) : String :=
  match o with
  | some (.str s) => if trimStr s ≠ "" then trimStr s else dflt
  | _ => dflt

/-- Sanitization of `data.category`: kept only when truthy and a member of
the allow-list (the `includes` check can only match a string), with the
sentinel otherwise. -/
def categoryField (validList : List String) (o : Option Json) : String :=
  match o with
  | some (.str s) => if s ≠ "" ∧ s ∈ validList then s else "other-expense"
  | _ => "other-expense"

/-- Field-by-field validation of a decoded payload (`data` in the source);
member access on a decoded `null` throws the TypeError that the enclosing
parse-catch absorbs. -/
def validateParsed (validList : List String) (now : Rat) (pd : String → Option Rat)
    (data : Json) : Except String ScanResult :=
  match data with
  | .null => .error "Cannot read properties of null (reading amount)"
  | data =>
    .ok
      { amount := amountField (jsProp data "amount")
        date := dateField now pd (jsProp data "date")
        description := textField "Receipt scan" (jsProp data "description")
        merchantName := textField "Unknown merchant" (jsProp data "merchantName")
        category := categoryField validList (jsProp data "category") }

/-- The fixed default returned when decoding the candidate span fails. -/
def formatFailResult (now : Rat) : ScanResult :=
  { amount := 0
    date := some now
    description := "Receipt scan - AI response format not recognized. Please manually enter details."
    merchantName := "Unknown merchant"
    category := "other-expense" }

/-- The result built by the outermost exception handler from a message. -/
def errorResult (now : Rat) (msg : String) : ScanResult :=
  { amount := 0
    date := some now
    description := "Error: " ++ msg ++ ". Please manually enter receipt details."
    merchantName := "Error occurred"
    category := "other-expense" }

/-- Candidate-span selection, decode, and per-field validation of one model
response text; decode failures and the decoded-`null` TypeError both land in
the parse-catch and yield the fixed default. -/
def processText (validList : List String) (now : Rat) (pd : String → Option Rat)
    (text : String) : ScanResult :=
  match parseJson (extractCandidate text) with
  | none => formatFailResult now
  | some data =>
    match validateParsed validList now pd data with
    | .error _ => formatFailResult now
    | .ok r => r

/-- The size ceiling from the source: 5 MB. -/
def sizeLimit : Nat := 5 * 1024 * 1024

/-- Body of the outer `try` of `scanReceipt`: pre-checks, category list
construction, the endpoint loop, the exhausted-list throw, text extraction
and processing.  Returns the thrown message or the result, paired with the
list of endpoints actually requested (empty when rejected before any
network activity). -/
def scanReceiptRun (apiKey : String) (formData : Option ScanFile) (cats : List String)
    (net : String → FetchOutcome) (now : Rat) (pd : String → Option Rat) :
    Except String ScanResult × List String :=
  match formData with
  | none => (.error "No file provided", [])
  | some file =>
    if file.size > sizeLimit then (.error "File size should be less than 5MB", [])
    else if apiKey = "" then
      (.error "GEMINI_API_KEY is not configured in environment variables", [])
    else
      let validList := splitComma (joinComma cats)
      let t := tryEndpoints net endpointsToTry
      if apiFalsy t.payload && t.lastErr.isSome then
        (.error (t.lastErr.getD ""), t.log)
      else
        match extractText t.payload with
        | .error m => (.error m, t.log)
        | .ok txt => (.ok (processText validList now pd txt), t.log)

/-- Model of `scanReceipt`: the outermost `catch` converts every thrown error into a
returned `ScanResult` embedding the message, so the exported function always
returns a value.  The second component is the request log of the run. -/
def scanReceipt (apiKey : String) (formData : Option ScanFile) (cats : List String)
    (net : String → FetchOutcome) (now : Rat) (pd : String → Option Rat) :
    ScanResult × List String :=
  match scanReceiptRun apiKey formData cats net now pd with
  | (.ok r, log) => (r, log)
  | (.error m, log) => (errorResult now m, log)

/-- The four presentation outcomes of the `ReceiptScanner` data effect
(success, error and two info toasts; each branch also forwards the result
via `onScanComplete`). -/
inductive ToastOutcome where
  | errorToast
  | successToast
  | fmtInfoToast
  | fallbackInfoToast
deriving DecidableEq

/-- The branch chain of the `scannedData` effect in `ReceiptScanner`,
in source order: error check, then meaningful-data check, then
format-not-recognized check, then the fallback info toast. -/
def classifyScan (r : ScanResult) : ToastOutcome :=
  if r.description ≠ "" ∧
      (containsSub r.description "Error:" = true ∨
        containsSub r.description "Failed to connect" = true) then
    .errorToast
  else if 0 < r.amount ∨
      (r.description ≠ "" ∧
        containsSub r.description "Receipt scan" = false ∧
        containsSub r.description "format not recognized" = false) then
    .successToast
  else if r.description ≠ "" ∧ containsSub r.description "format not recognized" = true then
    .fmtInfoToast
  else
    .fallbackInfoToast

/-- The error-path condition of the UI contract: the description contains
one of the two error markers. -/
def uiErrCond (r : ScanResult) : Prop :=
  containsSub r.description "Error:" = true ∨
    containsSub r.description "Failed to connect" = true

/-- The info-path condition of the UI contract: the description contains the
format-not-recognized marker. -/
def uiFmtCond (r : ScanResult) : Prop :=
  containsSub r.description "format not recognized" = true

/-- A non-generic description: non-empty and free of both generic markers. -/
def uiNonGeneric (r : ScanResult) : Prop :=
  r.description ≠ "" ∧
    containsSub r.description "Receipt scan" = false ∧
    containsSub r.description "format not recognized" = false

/-- The success-path condition of the UI contract. -/
def uiSuccCond (r : ScanResult) : Prop :=
  0 < r.amount ∨ uiNonGeneric r

instance (r : ScanResult) : Decidable (uiErrCond r) := by
  unfold uiErrCond; infer_instance

instance (r : ScanResult) : Decidable (uiFmtCond r) := by
  unfold uiFmtCond; infer_instance

instance (r : ScanResult) : Decidable (uiNonGeneric r) := by
  unfold uiNonGeneric; infer_instance

instance (r : ScanResult) : Decidable (uiSuccCond r) := by
  unfold uiSuccCond; infer_instance

/-- A user row, as far as the dashboard handlers inspect it. -/
structure UserRec where
  id : String

/-- A serialized account row for the dashboard (balance already numeric in
the rational model). -/
structure DashAccount where
  name : String
  balance : Rat
  txnCount : Nat
deriving DecidableEq

/-- A serialized transaction row for the dashboard. -/
structure DashTxn where
  amount : Rat
  dateMs : Int
deriving DecidableEq

/-- Outcomes of the three database queries the dashboard read handlers
issue, with `.error` modelling a rejected query. -/
structure DashDb where
  findUser : Except String (Option UserRec)
  findAccounts : Except String (List DashAccount)
  findTxns : Except String (List DashTxn)

/-- Model of `serializeTransaction` applied to an account row: the `Decimal` balance
object is truthy, so it is always converted with `toNumber`; in the rational
model this is the identity. -/
def serializeAccountRow (a : DashAccount) : DashAccount := a

/-- Model of `serializeTransaction` applied to a transaction row (same conversion,
identity in the rational model). -/
def serializeTxnRow (t : DashTxn) : DashTxn := t

/-- Model of `getUserAccounts` from `src/actions/dashboard.js`: the unauthenticated
check throws; after it, a missing user row throws into the outer catch and
every database failure lands in a catch that returns the empty array. -/
def getUserAccounts (userId : Option String) (db : DashDb) :
    Except String (List DashAccount) :=
  match userId with
  | none => .error "Unauthorized"
  | some _ =>
    match db.findUser with
    | .error _ => .ok []
    | .ok none => .ok []
    | .ok (some _) =>
      match db.findAccounts with
      | .error _ => .ok []
      | .ok accounts => .ok (accounts.map serializeAccountRow)

/-- Model of `getDashboardData` from `src/actions/dashboard.js`, with the same
shape over the transaction query. -/
def getDashboardData (userId : Option String) (db : DashDb) :
    Except String (List DashTxn) :=
  match userId with
  | none => .error "Unauthorized"
  | some _ =>
    match db.findUser with
    | .error _ => .ok []
    | .ok none => .ok []
    | .ok (some _) =>
      match db.findTxns with
      | .error _ => .ok []
      | .ok txns => .ok (txns.map serializeTxnRow)

/-- An account row of the authenticated user (`createAccount` only ever
touches rows with the caller user id, so the state is that user slice). -/
structure AcctRec where
  name : String
  balance : Rat
  isDefault : Bool
deriving DecidableEq

/-- The caller-supplied payload of `createAccount`; `balance` is the value
of `parseFloat(data.balance)`, with `none` modelling `NaN`. -/
structure CreateInput where
  name : String
  balance : Option Rat
  isDefault : Bool

/-- Success or failure of each database operation inside `createAccount`
(the first two failures are swallowed by their local catches). -/
structure CreateDbOracle where
  findManyOk : Bool
  updateManyOk : Bool
  createOk : Bool

/-- The `updateMany` that clears `isDefault` on the user rows that have it
set. -/
def clearDefaults (l : List AcctRec) : List AcctRec :=
  l.map fun a => if a.isDefault then { a with isDefault := false } else a

/-- Number of default accounts in a state. -/
def countDefaults (l : List AcctRec) : Nat :=
  (l.filter fun a => a.isDefault).length

/-- Model of `createAccount` from `src/actions/dashboard.js`, from the point the
auth, rate-limit and user checks have passed: an unparsable balance throws;
a failing existing-accounts query falls back to the empty list (making the
account look like the first one); a failing clear-defaults update is
swallowed; a failing create throws.  Returns the new account-row state. -/
def createAccount (st : List AcctRec) (input : CreateInput) (o : CreateDbOracle) :
    Except String (List AcctRec) :=
  match input.balance with
  | none => .error "Invalid balance amount"
  | some bal =>
    let existing := if o.findManyOk then st else []
    let shouldBeDefault := if existing.length = 0 then true else input.isDefault
    let st1 := if shouldBeDefault && o.updateManyOk then clearDefaults st else st
    if o.createOk then
      .ok (st1 ++ [{ name := input.name, balance := bal, isDefault := shouldBeDefault }])
    else .error "Failed to create account. Database connection issue."

/-- Containment of a non-empty needle forces a non-empty haystack. -/
theorem containsSub_ne_empty (s sub : String) (h : containsSub s sub = true)
    (hne : sub ≠ "") : s ≠ "" := by
  intro hs
  subst hs
  cases sub with
  | mk d =>
    cases d with
    | nil => exact hne rfl
    | cons c cs => simp [containsSub, occursIn, isStartOf] at h

/-- The first branch guard of `classifyScan` coincides with the error
condition of the UI contract. -/
theorem guard1_iff (r : ScanResult) :
    (r.description ≠ "" ∧
      (containsSub r.description "Error:" = true ∨
        containsSub r.description "Failed to connect" = true)) ↔ uiErrCond r := by
  constructor
  · rintro ⟨-, h⟩; exact h
  · intro h
    refine ⟨?_, h⟩
    rcases h with h | h
    · exact containsSub_ne_empty _ _ h (by decide)
    · exact containsSub_ne_empty _ _ h (by decide)

/-- The third branch guard of `classifyScan` coincides with the
format-not-recognized condition of the UI contract. -/
theorem guard3_iff (r : ScanResult) :
    (r.description ≠ "" ∧ containsSub r.description "format not recognized" = true) ↔
      uiFmtCond r := by
  constructor
  · rintro ⟨-, h⟩; exact h
  · intro h
    exact ⟨containsSub_ne_empty _ _ h (by decide), h⟩

/-- Claim C8 (amended): the `ReceiptScanner` classification follows the
source branch order — error markers first, then the meaningful-data success
check (`amount > 0` or a non-generic description), then the
format-not-recognized info toast, then the info fallback.  The
format-not-recognized check is therefore subordinate to the success check,
not ahead of it. -/
theorem classifyScan_branch_order (r : ScanResult) :
    (uiErrCond r → classifyScan r = ToastOutcome.errorToast) ∧
    (¬uiErrCond r → uiSuccCond r → classifyScan r = ToastOutcome.successToast) ∧
    (¬uiErrCond r → ¬uiSuccCond r → uiFmtCond r →
      classifyScan r = ToastOutcome.fmtInfoToast) ∧
    (¬uiErrCond r → ¬uiSuccCond r → ¬uiFmtCond r →
      classifyScan r = ToastOutcome.fallbackInfoToast) := by
  refine ⟨fun he => ?_, fun hne hs => ?_, fun hne hns hf => ?_, fun hne hns hnf => ?_⟩ <;>
    unfold classifyScan
  · rw [if_pos ((guard1_iff r).mpr he)]
  · unfold uiSuccCond uiNonGeneric at hs
    rw [if_neg (fun hg => hne ((guard1_iff r).mp hg)), if_pos hs]
  · unfold uiSuccCond uiNonGeneric at hns
    rw [if_neg (fun hg => hne ((guard1_iff r).mp hg)), if_neg hns,
      if_pos ((guard3_iff r).mpr hf)]
  · unfold uiSuccCond uiNonGeneric at hns
    rw [if_neg (fun hg => hne ((guard1_iff r).mp hg)), if_neg hns,
      if_neg (fun hg => hnf ((guard3_iff r).mp hg))]

/-- Claim C8 witness: the parse-failure default takes the
format-not-recognized info path. -/
theorem classifyScan_branch_order_witness :
    classifyScan (formatFailResult 0) = ToastOutcome.fmtInfoToast :=
  (classifyScan_branch_order (formatFailResult 0)).2.2.1 (by decide) (by decide) (by decide)

/-- A result whose description carries the format-not-recognized marker
while its amount is positive. -/
def uiMixedResult : ScanResult :=
  { amount := 5
    date := some 0
    description := "Total 5.00 but format not recognized"
    merchantName := "M"
    category := "groceries" }

/-- Claim C8 counterexample: a result that satisfies the claimed
format-not-recognized branch condition (and not the error condition) is
classified as a success toast, because the component checks the success
condition first; the claimed check order is wrong. -/
theorem classifyScan_order_counterexample :
    ¬uiErrCond uiMixedResult ∧ uiFmtCond uiMixedResult ∧
      classifyScan uiMixedResult = ToastOutcome.successToast ∧
      classifyScan uiMixedResult ≠ ToastOutcome.fmtInfoToast := by decide

/-- Claim C9: once authentication yields a user id, `getUserAccounts` and
`getDashboardData` always return a value (never throw); a missing user row
or a failed query yields the empty array, which is exactly what a user with
no data also receives. -/
theorem dashboard_reads_never_throw (uid : String) (db : DashDb) :
    (∃ l, getUserAccounts (some uid) db = .ok l) ∧
    (∃ l, getDashboardData (some uid) db = .ok l) ∧
    (db.findUser = .ok none →
      getUserAccounts (some uid) db = .ok [] ∧ getDashboardData (some uid) db = .ok []) ∧
    (∀ m, db.findUser = .error m →
      getUserAccounts (some uid) db = .ok [] ∧ getDashboardData (some uid) db = .ok []) ∧
    (∀ u m, db.findUser = .ok (some u) → db.findAccounts = .error m →
      getUserAccounts (some uid) db = .ok []) ∧
    (∀ u m, db.findUser = .ok (some u) → db.findTxns = .error m →
      getDashboardData (some uid) db = .ok []) ∧
    (∀ u, db.findUser = .ok (some u) → db.findAccounts = .ok [] →
      getUserAccounts (some uid) db = .ok []) ∧
    (∀ u, db.findUser = .ok (some u) → db.findTxns = .ok [] →
      getDashboardData (some uid) db = .ok []) := by
  obtain ⟨fu, fa, ft⟩ := db
  cases fu with
  | error m => simp [getUserAccounts, getDashboardData]
  | ok ou =>
    cases ou with
    | none => simp [getUserAccounts, getDashboardData]
    | some u =>
      cases fa <;> cases ft <;>
        simp [getUserAccounts, getDashboardData, serializeAccountRow, serializeTxnRow]

/-- A database state whose user lookup reports no user row. -/
def dbMissingUser : DashDb := ⟨.ok none, .error "connection refused", .ok []⟩

/-- Claim C9 witness: with a missing user row, both reads return the empty
array. -/
theorem dashboard_reads_never_throw_witness :
    getUserAccounts (some "u1") dbMissingUser = .ok [] ∧
      getDashboardData (some "u1") dbMissingUser = .ok [] :=
  (dashboard_reads_never_throw "u1" dbMissingUser).2.2.1 rfl

/-- Clearing defaults leaves no default account. -/
theorem countDefaults_clearDefaults (l : List AcctRec) :
    countDefaults (clearDefaults l) = 0 := by
  induction l with
  | nil => rfl
  | cons a t ih =>
    by_cases h : a.isDefault <;>
      simp [clearDefaults, countDefaults, List.filter_cons, h] at ih ⊢ <;>
      simpa [clearDefaults, countDefaults] using ih

/-- Default count distributes over concatenation. -/
theorem countDefaults_append (l r : List AcctRec) :
    countDefaults (l ++ r) = countDefaults l + countDefaults r := by
  simp [countDefaults, List.filter_append]


/-- Every row of a cleared state is non-default. -/
theorem clearDefaults_all_false (l : List AcctRec) :
    ∀ x ∈ clearDefaults l, x.isDefault = false := by
  intro x hx
  unfold clearDefaults at hx
  rw [List.mem_map] at hx
  obtain ⟨a, -, rfl⟩ := hx
  by_cases h : a.isDefault = true <;> simp [h]

/-- Shape of a successful `createAccount` when the intermediate database
operations succeed: the state after the conditional default-clearing, with
the new row appended. -/
theorem createAccount_ok_eq (st : List AcctRec) (input : CreateInput)
    (o : CreateDbOracle) (bal : Rat)
    (hbal : input.balance = some bal) (hfind : o.findManyOk = true)
    (hupd : o.updateManyOk = true) (hco : o.createOk = true) :
    createAccount st input o =
      .ok ((if (if st.length = 0 then true else input.isDefault) then clearDefaults st else st) ++
        [{ name := input.name, balance := bal,
           isDefault := if st.length = 0 then true else input.isDefault }]) := by
  unfold createAccount
  rw [hbal]
  simp [hfind, hupd, hco]

/-- Claim C10 (amended): when the existing-accounts query and the
clear-defaults update both succeed and the prior state has at most one
default account (exactly one when any account exists), `createAccount`
leaves exactly one default account; the first account is made default
regardless of the caller input, and whenever the new account is to be
default, all previous defaults are cleared before it is appended.  (When
those intermediate operations fail, their local catches swallow the failure
and the invariant is not protected.) -/
theorem createAccount_preserves_single_default
    (st : List AcctRec) (input : CreateInput) (o : CreateDbOracle)
    (bal : Rat) (l : List AcctRec)
    (hbal : input.balance = some bal)
    (hfind : o.findManyOk = true) (hupd : o.updateManyOk = true)
    (hpre2 : st ≠ [] → countDefaults st = 1)
    (hok : createAccount st input o = .ok l) :
    countDefaults l = 1 ∧
    (st = [] → l = [{ name := input.name, balance := bal, isDefault := true }]) ∧
    ((input.isDefault = true ∨ st = []) →
      l = clearDefaults st ++ [{ name := input.name, balance := bal, isDefault := true }]) := by
  have hco : o.createOk = true := by
    cases hc : o.createOk with
    | true => rfl
    | false =>
      exfalso
      unfold createAccount at hok
      rw [hbal, hc] at hok
      simp at hok
  rw [createAccount_ok_eq st input o bal hbal hfind hupd hco] at hok
  have hl := (Except.ok.inj hok).symm
  subst hl
  cases st with
  | nil =>
    refine ⟨rfl, fun _ => rfl, fun _ => rfl⟩
  | cons a t =>
    have hne : a :: t ≠ [] := by simp
    have hcnt : countDefaults (a :: t) = 1 := hpre2 hne
    cases hd : input.isDefault with
    | true =>
      refine ⟨?_, fun h => absurd h hne, fun _ => ?_⟩
      · simp [hd, countDefaults_append, countDefaults_clearDefaults, countDefaults,
          List.filter_cons]
        exact fun x hx => clearDefaults_all_false _ x hx
      · simp [hd]
    | false =>
      refine ⟨?_, fun h => absurd h hne, ?_⟩
      · simp [hd, countDefaults_append, countDefaults, List.filter_cons] at hcnt ⊢
        exact hcnt
      · rintro (h | h)
        · simp at h
        · exact absurd h hne

/-- Claim C10 witness: appending a non-default account to a one-default
state keeps exactly one default. -/
theorem createAccount_preserves_single_default_witness :
    countDefaults
        [{ name := "A", balance := 1, isDefault := true },
          { name := "B", balance := 2, isDefault := false }] = 1 :=
  (createAccount_preserves_single_default
      [{ name := "A", balance := 1, isDefault := true }]
      { name := "B", balance := some 2, isDefault := false }
      ⟨true, true, true⟩ 2 _ rfl rfl rfl (fun _ => rfl) rfl).1

/-- The one prior account of the claim C10 counterexample, already default. -/
def acctA : AcctRec := { name := "A", balance := 1, isDefault := true }

/-- Claim C10 counterexample: with one existing default account, a default
new-account request whose clear-defaults `updateMany` fails (the failure is
caught and swallowed) creates a second default account, violating the
at-most-one-default invariant the claim asserts unconditionally. -/
theorem createAccount_two_defaults_counterexample :
    countDefaults [acctA] = 1 ∧
      createAccount [acctA] { name := "B", balance := some 2, isDefault := true }
          ⟨true, false, true⟩ =
        .ok [acctA, { name := "B", balance := 2, isDefault := true }] ∧
      countDefaults [acctA, { name := "B", balance := 2, isDefault := true }] = 2 :=
  ⟨rfl, rfl, rfl⟩

/-- String append acts as list append on the character data. -/
theorem string_data_append (a b : String) : (a ++ b).data = a.data ++ b.data := rfl

/-- A list starts with itself (padded by anything). -/
theorem isStartOf_append_self (xs ys : List Char) : isStartOf xs (xs ++ ys) = true := by
  induction xs with
  | nil => rfl
  | cons a as ih => simp [isStartOf, ih]

/-- A needle that starts the haystack occurs in it. -/
theorem occursIn_of_isStartOf (n hay : List Char) (h : isStartOf n hay = true) :
    occursIn n hay = true := by
  cases hay with
  | nil => simpa [occursIn] using h
  | cons b bs => simp [occursIn, h]

/-- Occurrence is preserved by prepending. -/
theorem occursIn_append_left (n pre rest : List Char) (h : occursIn n rest = true) :
    occursIn n (pre ++ rest) = true := by
  induction pre with
  | nil => simpa using h
  | cons c cs ih => simp [occursIn, ih]

/-- Any string contains an infix sandwiched between two others. -/
theorem containsSub_sandwich (pre m post : String) :
    containsSub (pre ++ m ++ post) m = true := by
  unfold containsSub
  rw [string_data_append, string_data_append, List.append_assoc]
  exact occursIn_append_left _ _ _
    (occursIn_of_isStartOf m.data (m.data ++ post.data)
      (isStartOf_append_self m.data post.data))

/-- The outer-handler result embeds the thrown message in its description. -/
theorem errorResult_contains (now : Rat) (m : String) :
    containsSub (errorResult now m).description m = true :=
  containsSub_sandwich "Error: " m ". Please manually enter receipt details."

/-- Splitting a comma-free chunk gives the singleton chunk back. -/
theorem splitCommaChars_nocomma (l : List Char) (h : ',' ∉ l) :
    splitCommaChars l = [l] := by
  induction l with
  | nil => rfl
  | cons c rest ih =>
    have hc : c ≠ ',' := fun hcc => h (hcc ▸ List.mem_cons_self c rest)
    have hr : ',' ∉ rest := fun hm => h (List.mem_cons_of_mem c hm)
    simp [splitCommaChars, hc, ih hr]

/-- Splitting after a comma-free prefix peels that prefix off. -/
theorem splitCommaChars_append (l r : List Char) (h : ',' ∉ l) :
    splitCommaChars (l ++ ',' :: r) = l :: splitCommaChars r := by
  induction l with
  | nil => simp [splitCommaChars]
  | cons c rest ih =>
    have hc : c ≠ ',' := fun hcc => h (hcc ▸ List.mem_cons_self c rest)
    have hr : ',' ∉ rest := fun hm => h (List.mem_cons_of_mem c hm)
    have : splitCommaChars (rest ++ ',' :: r) = rest :: splitCommaChars r := ih hr
    simp [splitCommaChars, hc, this]

/-- Round trip of the source category-list plumbing: joining the expense
category ids with commas and splitting again recovers the ids, provided the
list is non-empty and the ids are comma-free. -/
theorem splitComma_joinComma (cats : List String) (hne : cats ≠ [])
    (hnc : ∀ c ∈ cats, ',' ∉ c.data) : splitComma (joinComma cats) = cats := by
  induction cats with
  | nil => exact absurd rfl hne
  | cons c rest ih =>
    cases rest with
    | nil =>
      unfold splitComma joinComma
      rw [splitCommaChars_nocomma c.data (hnc c (List.mem_cons_self c []))]
      rfl
    | cons d rest2 =>
      have hjoin : joinComma (c :: d :: rest2) = c ++ "," ++ joinComma (d :: rest2) := rfl
      have hdata : (c ++ "," ++ joinComma (d :: rest2)).data =
          c.data ++ ',' :: (joinComma (d :: rest2)).data := by
        rw [string_data_append, string_data_append]
        simp
      unfold splitComma
      rw [hjoin, hdata,
        splitCommaChars_append c.data _ (hnc c (List.mem_cons_self c (d :: rest2)))]
      have hrest : splitComma (joinComma (d :: rest2)) = d :: rest2 :=
        ih (by simp) (fun x hx => hnc x (List.mem_cons_of_mem c hx))
      unfold splitComma at hrest
      simp [hrest]

/-- The amount sanitization never yields a negative value. -/
theorem amountField_nonneg (o : Option Json) : 0 ≤ amountField o := by
  rcases o with - | v
  · simp [amountField]
  · cases v <;> simp [amountField, abs_nonneg]

/-- The category sanitization yields an allow-list member or the sentinel. -/
theorem categoryField_mem (vl : List String) (o : Option Json) :
    categoryField vl o ∈ vl ∨ categoryField vl o = "other-expense" := by
  rcases o with - | v
  · right; rfl
  · cases v with
    | str s =>
      show (if s ≠ "" ∧ s ∈ vl then s else "other-expense") ∈ vl ∨
        (if s ≠ "" ∧ s ∈ vl then s else "other-expense") = "other-expense"
      split_ifs with h
      · exact Or.inl h.2
      · right; rfl
    | null => right; rfl
    | bool b => right; rfl
    | num q => right; rfl
    | arr xs => right; rfl
    | obj fs => right; rfl

/-- Equation for validation of a non-null decoded value. -/
theorem validateParsed_eq_ok (vl : List String) (now : Rat) (pd : String → Option Rat)
    (data : Json) (h : data ≠ Json.null) :
    validateParsed vl now pd data =
      .ok
        { amount := amountField (jsProp data "amount")
          date := dateField now pd (jsProp data "date")
          description := textField "Receipt scan" (jsProp data "description")
          merchantName := textField "Unknown merchant" (jsProp data "merchantName")
          category := categoryField vl (jsProp data "category") } := by
  cases data with
  | null => exact absurd rfl h
  | bool b => rfl
  | num q => rfl
  | str s => rfl
  | arr xs => rfl
  | obj fs => rfl

/-- A validated result has a non-negative amount and an allow-listed or
sentinel category. -/
theorem validateParsed_ok_props (vl : List String) (now : Rat)
    (pd : String → Option Rat) (data : Json) (r : ScanResult)
    (h : validateParsed vl now pd data = .ok r) :
    0 ≤ r.amount ∧ (r.category ∈ vl ∨ r.category = "other-expense") := by
  have hnn : data ≠ Json.null := by
    intro hd
    subst hd
    exact absurd h (by simp [validateParsed])
  rw [validateParsed_eq_ok vl now pd data hnn] at h
  have hr := Except.ok.inj h
  subst hr
  refine ⟨?_, ?_⟩
  · show 0 ≤ amountField (jsProp data "amount")
    exact amountField_nonneg _
  · show categoryField vl (jsProp data "category") ∈ vl ∨
      categoryField vl (jsProp data "category") = "other-expense"
    exact categoryField_mem vl _

/-- Equation for text processing once the decode outcome is known. -/
theorem processText_eq_of_parse (vl : List String) (now : Rat) (pd : String → Option Rat)
    (text : String) (data : Json) (hp : parseJson (extractCandidate text) = some data) :
    processText vl now pd text =
      (match validateParsed vl now pd data with
        | .error _ => formatFailResult now
        | .ok r => r) := by
  unfold processText
  rw [hp]

/-- Equation for text processing when decoding fails. -/
theorem processText_eq_of_parse_fail (vl : List String) (now : Rat)
    (pd : String → Option Rat) (text : String)
    (hp : parseJson (extractCandidate text) = none) :
    processText vl now pd text = formatFailResult now := by
  unfold processText
  rw [hp]

/-- Every result coming out of text processing has a non-negative amount
and an allow-listed or sentinel category. -/
theorem processText_props (vl : List String) (now : Rat) (pd : String → Option Rat)
    (text : String) :
    0 ≤ (processText vl now pd text).amount ∧
      ((processText vl now pd text).category ∈ vl ∨
        (processText vl now pd text).category = "other-expense") := by
  cases hp : parseJson (extractCandidate text) with
  | none =>
    rw [processText_eq_of_parse_fail vl now pd text hp]
    exact ⟨le_refl 0, Or.inr rfl⟩
  | some data =>
    rw [processText_eq_of_parse vl now pd text data hp]
    cases hv : validateParsed vl now pd data with
    | error m => exact ⟨le_refl 0, Or.inr rfl⟩
    | ok r => exact validateParsed_ok_props vl now pd data r hv

/-- A successful fetch stops the loop immediately. -/
theorem tryEndpoints_cons_ok (net : String → FetchOutcome) (e : String)
    (rest : List String) (p : Json) (h : net e = .ok p) :
    tryEndpoints net (e :: rest) = ⟨[e], some p, none⟩ := by
  simp [tryEndpoints, h]

/-- A recorded failure extends the log and keeps the later loop state,
falling back to this attempt's message when no later error was recorded. -/
theorem tryEndpoints_cons_fail (net : String → FetchOutcome) (e : String)
    (rest : List String) (h : isRecordedFail (net e) = true) :
    tryEndpoints net (e :: rest) =
      ⟨e :: (tryEndpoints net rest).log, (tryEndpoints net rest).payload,
        match (tryEndpoints net rest).lastErr with
        | some m => some m
        | none => some (failMsg (net e))⟩ := by
  cases ho : net e with
  | ok p => rw [ho] at h; exact absurd h (by simp [isRecordedFail])
  | okBadJson m => simp [tryEndpoints, ho]
  | httpFail a b c => simp [tryEndpoints, ho]
  | netExn m => simp [tryEndpoints, ho]

/-- When the first `k` endpoints fail with recorded errors and endpoint `k`
succeeds, the loop requests exactly the first `k + 1` endpoints and keeps
payload `p`. -/
theorem tryEndpoints_firstOk (net : String → FetchOutcome) :
    ∀ (es : List String) (k : Nat) (p : Json), k < es.length →
      (∀ e ∈ es.take k, isRecordedFail (net e) = true) →
      net (es.getD k "") = .ok p →
      (tryEndpoints net es).log = es.take (k + 1) ∧
        (tryEndpoints net es).payload = some p := by
  intro es
  induction es with
  | nil => intro k p hk _ _; simp at hk
  | cons e rest ih =>
    intro k p hk hf hs
    cases k with
    | zero =>
      have he : net e = .ok p := by simpa using hs
      rw [tryEndpoints_cons_ok net e rest p he]
      exact ⟨rfl, rfl⟩
    | succ k' =>
      have he : isRecordedFail (net e) = true := hf e (by simp)
      have hf' : ∀ x ∈ rest.take k', isRecordedFail (net x) = true := by
        intro x hx
        exact hf x (by simp [hx])
      have hs' : net (rest.getD k' "") = .ok p := by simpa using hs
      have hk' : k' < rest.length := by simpa using hk
      obtain ⟨hl, hp⟩ := ih k' p hk' hf' hs'
      rw [tryEndpoints_cons_fail net e rest he]
      refine ⟨?_, hp⟩
      show e :: (tryEndpoints net rest).log = (e :: rest).take (k' + 1 + 1)
      rw [hl]
      rfl

/-- When all four endpoints fail with recorded errors, the loop requests all
of them, keeps no payload, and its last recorded error is the fourth
attempt's. -/
theorem tryEndpoints_allFail4 (net : String → FetchOutcome)
    (h1 : isRecordedFail (net endpointUrl1) = true)
    (h2 : isRecordedFail (net endpointUrl2) = true)
    (h3 : isRecordedFail (net endpointUrl3) = true)
    (h4 : isRecordedFail (net endpointUrl4) = true) :
    tryEndpoints net endpointsToTry =
      ⟨endpointsToTry, none, some (failMsg (net endpointUrl4))⟩ := by
  show tryEndpoints net
      (endpointUrl1 :: endpointUrl2 :: endpointUrl3 :: endpointUrl4 :: []) = _
  rw [tryEndpoints_cons_fail net _ _ h1, tryEndpoints_cons_fail net _ _ h2,
    tryEndpoints_cons_fail net _ _ h3, tryEndpoints_cons_fail net _ _ h4]
  rfl

/-- The body of `scanReceiptRun` once all three pre-checks pass. -/
theorem scanReceiptRun_main (apiKey : String) (file : ScanFile) (cats : List String)
    (net : String → FetchOutcome) (now : Rat) (pd : String → Option Rat)
    (hsz : file.size ≤ sizeLimit) (hk : apiKey ≠ "") :
    scanReceiptRun apiKey (some file) cats net now pd =
      (if apiFalsy (tryEndpoints net endpointsToTry).payload &&
          (tryEndpoints net endpointsToTry).lastErr.isSome then
        (.error ((tryEndpoints net endpointsToTry).lastErr.getD ""),
          (tryEndpoints net endpointsToTry).log)
      else
        match extractText (tryEndpoints net endpointsToTry).payload with
        | .error m => (.error m, (tryEndpoints net endpointsToTry).log)
        | .ok txt =>
          (.ok (processText (splitComma (joinComma cats)) now pd txt),
            (tryEndpoints net endpointsToTry).log)) := by
  simp only [scanReceiptRun]
  rw [if_neg (show ¬file.size > sizeLimit by omega), if_neg hk]

/-- A well-formed model response carrying `txt` at
`candidates[0].content.parts[0].text`. -/
def payloadOf (txt : String) : Json :=
  Json.obj [("candidates", Json.arr [Json.obj [("content",
    Json.obj [("parts", Json.arr [Json.obj [("text", Json.str txt)]])])]])]

/-- Text extraction recovers the embedded text from a well-formed response
(an empty text falls through the falsy-chain default, which is again the
empty string). -/
theorem extractText_payloadOf (txt : String) :
    extractText (some (payloadOf txt)) = .ok txt := by
  by_cases h : txt = ""
  · subst h; rfl
  · have ht : jsTruthy (Json.str txt) = true := by simp [jsTruthy, h]
    simp [extractText, payloadOf, jsProp, lookupLast, chainGet, jsIndex0, ht]

/-- The result `scanReceipt` builds from a kept payload: extract the text
(or throw into the outer handler) and process it. -/
def resultFromPayload (cats : List String) (now : Rat) (pd : String → Option Rat)
    (p : Json) : ScanResult :=
  match extractText (some p) with
  | .error m => errorResult now m
  | .ok txt => processText (splitComma (joinComma cats)) now pd txt

/-- Scenario: pre-checks pass, the first `k` endpoints fail with recorded
errors, endpoint `k` succeeds with a truthy payload.  The call returns the
result built from that payload and requested exactly the first `k + 1`
endpoints. -/
theorem scanReceipt_firstOk (apiKey : String) (file : ScanFile) (cats : List String)
    (net : String → FetchOutcome) (now : Rat) (pd : String → Option Rat)
    (k : Nat) (p : Json)
    (hsz : file.size ≤ sizeLimit) (hk : apiKey ≠ "")
    (hk4 : k < endpointsToTry.length)
    (hfails : ∀ e ∈ endpointsToTry.take k, isRecordedFail (net e) = true)
    (hsucc : net (endpointsToTry.getD k "") = .ok p)
    (ht : jsTruthy p = true) :
    scanReceipt apiKey (some file) cats net now pd =
      (resultFromPayload cats now pd p, endpointsToTry.take (k + 1)) := by
  obtain ⟨hl, hp⟩ := tryEndpoints_firstOk net endpointsToTry k p hk4 hfails hsucc
  have hcond : (apiFalsy (tryEndpoints net endpointsToTry).payload &&
      (tryEndpoints net endpointsToTry).lastErr.isSome) = false := by
    rw [hp]
    simp [apiFalsy, ht]
  have hrun := scanReceiptRun_main apiKey file cats net now pd hsz hk
  rw [hcond] at hrun
  simp only [Bool.false_eq_true, if_false] at hrun
  rw [hp, hl] at hrun
  unfold scanReceipt resultFromPayload
  rw [hrun]
  cases he : extractText (some p) with
  | error m => rfl
  | ok txt => rfl

/-- Scenario: pre-checks pass and all four endpoints fail with recorded
errors.  The call returns the outer-handler result carrying the fourth
(last recorded) failure message, and requested all four endpoints. -/
theorem scanReceipt_allFail (apiKey : String) (file : ScanFile) (cats : List String)
    (net : String → FetchOutcome) (now : Rat) (pd : String → Option Rat)
    (hsz : file.size ≤ sizeLimit) (hk : apiKey ≠ "")
    (hfails : ∀ e ∈ endpointsToTry, isRecordedFail (net e) = true) :
    scanReceipt apiKey (some file) cats net now pd =
      (errorResult now (failMsg (net endpointUrl4)), endpointsToTry) := by
  have hTE := tryEndpoints_allFail4 net
    (hfails endpointUrl1 (by simp [endpointsToTry]))
    (hfails endpointUrl2 (by simp [endpointsToTry]))
    (hfails endpointUrl3 (by simp [endpointsToTry]))
    (hfails endpointUrl4 (by simp [endpointsToTry]))
  have hrun := scanReceiptRun_main apiKey file cats net now pd hsz hk
  rw [hTE] at hrun
  simp only [apiFalsy, Option.isSome_some, Bool.and_true, Option.getD_some, if_true] at hrun
  unfold scanReceipt
  rw [hrun]

/-- Either return path of `scanReceipt`: an outer-handler error result, or a
processed-text result. -/
theorem scanReceiptRun_fst_shape (apiKey : String) (fd : Option ScanFile)
    (cats : List String) (net : String → FetchOutcome) (now : Rat)
    (pd : String → Option Rat) :
    (∃ m log, scanReceiptRun apiKey fd cats net now pd = (.error m, log)) ∨
    (∃ txt log, scanReceiptRun apiKey fd cats net now pd =
      (.ok (processText (splitComma (joinComma cats)) now pd txt), log)) := by
  cases fd with
  | none => exact Or.inl ⟨"No file provided", [], rfl⟩
  | some file =>
    by_cases h1 : file.size > sizeLimit
    · refine Or.inl ⟨"File size should be less than 5MB", [], ?_⟩
      simp only [scanReceiptRun]
      rw [if_pos h1]
    · by_cases h2 : apiKey = ""
      · refine Or.inl ⟨"GEMINI_API_KEY is not configured in environment variables", [], ?_⟩
        simp only [scanReceiptRun]
        rw [if_neg h1, if_pos h2]
      · have hrun := scanReceiptRun_main apiKey file cats net now pd (by omega) h2
        by_cases h3 : (apiFalsy (tryEndpoints net endpointsToTry).payload &&
            (tryEndpoints net endpointsToTry).lastErr.isSome) = true
        · rw [if_pos h3] at hrun
          exact Or.inl ⟨_, _, hrun⟩
        · rw [if_neg h3] at hrun
          cases he : extractText (tryEndpoints net endpointsToTry).payload with
          | error m =>
            rw [he] at hrun
            exact Or.inl ⟨m, _, hrun⟩
          | ok txt =>
            rw [he] at hrun
            exact Or.inr ⟨txt, _, hrun⟩

/-- The returned result is always an outer-handler error result or a
processed-text result. -/
theorem scanReceipt_shape (apiKey : String) (fd : Option ScanFile)
    (cats : List String) (net : String → FetchOutcome) (now : Rat)
    (pd : String → Option Rat) :
    (∃ m, (scanReceipt apiKey fd cats net now pd).1 = errorResult now m) ∨
    (∃ txt, (scanReceipt apiKey fd cats net now pd).1 =
      processText (splitComma (joinComma cats)) now pd txt) := by
  rcases scanReceiptRun_fst_shape apiKey fd cats net now pd with ⟨m, log, h⟩ | ⟨txt, log, h⟩
  · refine Or.inl ⟨m, ?_⟩
    unfold scanReceipt
    rw [h]
  · refine Or.inr ⟨txt, ?_⟩
    unfold scanReceipt
    rw [h]

/-- The result `scanReceipt` returns when endpoint 1 delivers the payload
wrapping `txt` and that text decodes to the non-null value `data`. -/
theorem scanReceipt_decoded_fields (apiKey : String) (file : ScanFile)
    (cats : List String) (net : String → FetchOutcome) (now : Rat)
    (pd : String → Option Rat) (txt : String) (data : Json)
    (hsz : file.size ≤ sizeLimit) (hk : apiKey ≠ "")
    (hnet : net endpointUrl1 = .ok (payloadOf txt))
    (hparse : parseJson (extractCandidate txt) = some data)
    (hnn : data ≠ Json.null) :
    scanReceipt apiKey (some file) cats net now pd =
      ({ amount := amountField (jsProp data "amount")
         date := dateField now pd (jsProp data "date")
         description := textField "Receipt scan" (jsProp data "description")
         merchantName := textField "Unknown merchant" (jsProp data "merchantName")
         category := categoryField (splitComma (joinComma cats)) (jsProp data "category") },
        [endpointUrl1]) := by
  have h := scanReceipt_firstOk apiKey file cats net now pd 0 (payloadOf txt) hsz hk
    (by simp [endpointsToTry]) (by simp) (by simpa [endpointsToTry] using hnet) rfl
  rw [h]
  have hres : resultFromPayload cats now pd (payloadOf txt) =
      processText (splitComma (joinComma cats)) now pd txt := by
    unfold resultFromPayload
    rw [extractText_payloadOf]
  rw [hres, processText_eq_of_parse _ _ _ _ _ hparse,
    validateParsed_eq_ok _ _ _ _ hnn]
  rfl

/-- Claim C1: once the pre-checks pass (file present and within the size
ceiling, credential configured), the returned result always has a
non-negative amount and a category drawn from the caller-supplied allowed
ids or the sentinel, on every return path; and when a decoded payload
carries a category outside the allow-list, the category is replaced by the
sentinel while the other sanitized fields are kept. -/
theorem scanReceipt_amount_category_invariant (apiKey : String) (file : ScanFile)
    (cats : List String) (net : String → FetchOutcome) (now : Rat)
    (pd : String → Option Rat)
    (hk : apiKey ≠ "") (hsz : file.size ≤ sizeLimit)
    (hne : cats ≠ []) (hnc : ∀ c ∈ cats, ',' ∉ c.data) :
    (0 ≤ (scanReceipt apiKey (some file) cats net now pd).1.amount ∧
      ((scanReceipt apiKey (some file) cats net now pd).1.category ∈ cats ∨
        (scanReceipt apiKey (some file) cats net now pd).1.category = "other-expense")) ∧
    (∀ txt data s,
      net endpointUrl1 = .ok (payloadOf txt) →
      parseJson (extractCandidate txt) = some data →
      data ≠ Json.null →
      jsProp data "category" = some (Json.str s) →
      s ∉ splitComma (joinComma cats) →
      (scanReceipt apiKey (some file) cats net now pd).1.category = "other-expense" ∧
        (scanReceipt apiKey (some file) cats net now pd).1.amount =
          amountField (jsProp data "amount") ∧
        (scanReceipt apiKey (some file) cats net now pd).1.description =
          textField "Receipt scan" (jsProp data "description") ∧
        (scanReceipt apiKey (some file) cats net now pd).1.merchantName =
          textField "Unknown merchant" (jsProp data "merchantName")) := by
  constructor
  · rcases scanReceipt_shape apiKey (some file) cats net now pd with ⟨m, h⟩ | ⟨txt, h⟩
    · rw [h]
      exact ⟨le_refl 0, Or.inr rfl⟩
    · rw [h]
      have hsj : splitComma (joinComma cats) = cats := splitComma_joinComma cats hne hnc
      obtain ⟨h1, h2⟩ := processText_props (splitComma (joinComma cats)) now pd txt
      refine ⟨h1, ?_⟩
      revert h2
      generalize (processText (splitComma (joinComma cats)) now pd txt).category = c
      intro h2
      rcases h2 with hmem | hsent
      · exact Or.inl (hsj ▸ hmem)
      · exact Or.inr hsent
  · intro txt data s hnet hparse hnn hcat hout
    have h := scanReceipt_decoded_fields apiKey file cats net now pd txt data hsz hk
      hnet hparse hnn
    rw [h]
    refine ⟨?_, rfl, rfl, rfl⟩
    show categoryField (splitComma (joinComma cats)) (jsProp data "category") = "other-expense"
    rw [hcat]
    unfold categoryField
    simp only [ite_eq_right_iff]
    intro hcond
    exact absurd hcond.2 hout

/-- A small uploaded file used by concrete instantiations. -/
def fileFixture : ScanFile := ⟨100, "image/png"⟩

/-- A date parser oracle knowing one ISO date, as an engine would. -/
def pdFixture : String → Option Rat :=
  fun s => if s = "2023-12-25" then some 1703462400000 else none

/-- Claim C1 witness: the invariant instantiated on a run in which every
endpoint fails with a network exception. -/
theorem scanReceipt_amount_category_invariant_witness :
    0 ≤ (scanReceipt "key0" (some fileFixture) ["groceries"]
        (fun _ => FetchOutcome.netExn "down") 0 pdFixture).1.amount ∧
      ((scanReceipt "key0" (some fileFixture) ["groceries"]
          (fun _ => FetchOutcome.netExn "down") 0 pdFixture).1.category ∈ ["groceries"] ∨
        (scanReceipt "key0" (some fileFixture) ["groceries"]
            (fun _ => FetchOutcome.netExn "down") 0 pdFixture).1.category =
          "other-expense") :=
  (scanReceipt_amount_category_invariant "key0" fileFixture ["groceries"]
    (fun _ => FetchOutcome.netExn "down") 0 pdFixture
    (by decide) (by decide) (by decide) (by decide)).1

/-- Claim C2 (amended): the three pre-checks reject before any network
activity (the request log is empty), but their failures do not escape: the
outermost handler converts them — like every later thrown failure — into a
returned result whose description embeds the message.  `scanReceipt` never
raises to its caller. -/
theorem scanReceipt_precheck_converted (apiKey : String) (file : ScanFile)
    (cats : List String) (net : String → FetchOutcome) (now : Rat)
    (pd : String → Option Rat) (fd : Option ScanFile) :
    (scanReceipt apiKey none cats net now pd = (errorResult now "No file provided", [])) ∧
    (file.size > sizeLimit →
      scanReceipt apiKey (some file) cats net now pd =
        (errorResult now "File size should be less than 5MB", [])) ∧
    (file.size ≤ sizeLimit → apiKey = "" →
      scanReceipt apiKey (some file) cats net now pd =
        (errorResult now "GEMINI_API_KEY is not configured in environment variables", [])) ∧
    (∀ m log, scanReceiptRun apiKey fd cats net now pd = (.error m, log) →
      scanReceipt apiKey fd cats net now pd = (errorResult now m, log)) := by
  refine ⟨rfl, fun h => ?_, fun hsz hk => ?_, fun m log h => ?_⟩
  · have hrun : scanReceiptRun apiKey (some file) cats net now pd =
        (.error "File size should be less than 5MB", []) := by
      simp only [scanReceiptRun]
      rw [if_pos h]
    unfold scanReceipt
    rw [hrun]
  · have hrun : scanReceiptRun apiKey (some file) cats net now pd =
        (.error "GEMINI_API_KEY is not configured in environment variables", []) := by
      simp only [scanReceiptRun]
      rw [if_neg (show ¬file.size > sizeLimit by omega), if_pos hk]
    unfold scanReceipt
    rw [hrun]
  · unfold scanReceipt
    rw [h]

/-- Claim C2 witness: an oversize file is rejected with no request issued,
and the rejection comes back as a returned result. -/
theorem scanReceipt_precheck_converted_witness :
    scanReceipt "key0" (some ⟨6000000, "image/png"⟩) ["groceries"]
        (fun _ => FetchOutcome.netExn "down") 0 pdFixture =
      (errorResult 0 "File size should be less than 5MB", []) :=
  (scanReceipt_precheck_converted "key0" ⟨6000000, "image/png"⟩ ["groceries"]
    (fun _ => FetchOutcome.netExn "down") 0 pdFixture none).2.1 (by decide)

/-- Claim C2 counterexample: with no file supplied, `scanReceipt` does not
raise to its caller — it returns normally, with the rejection message
embedded in the description of the returned result. -/
theorem scanReceipt_nofile_returns_counterexample :
    scanReceipt "key0" none ["groceries"] (fun _ => FetchOutcome.netExn "down") 0 pdFixture =
      ({ amount := 0, date := some 0,
         description := "Error: No file provided. Please manually enter receipt details.",
         merchantName := "Error occurred", category := "other-expense" }, []) := rfl

/-- Claim C3 (amended): the loop walks the fixed four-URL list in order and
stops at the first endpoint whose response is an HTTP success with a
decodable body; when the kept payload is truthy, the returned result is
built from that payload alone, the request log is exactly the first `k + 1`
endpoints (one request per endpoint, later endpoints never contacted), and
the earlier recorded failures do not appear in the result.  (A 2xx response
whose body fails to decode is recorded as a failure and the loop
continues.) -/
theorem endpoint_loop_first_decodable_success (apiKey : String) (file : ScanFile)
    (cats : List String) (net : String → FetchOutcome) (now : Rat)
    (pd : String → Option Rat) (k : Nat) (p : Json)
    (hsz : file.size ≤ sizeLimit) (hk : apiKey ≠ "")
    (hk4 : k < endpointsToTry.length)
    (hfails : ∀ e ∈ endpointsToTry.take k, isRecordedFail (net e) = true)
    (hsucc : net (endpointsToTry.getD k "") = .ok p)
    (ht : jsTruthy p = true) :
    scanReceipt apiKey (some file) cats net now pd =
      (resultFromPayload cats now pd p, endpointsToTry.take (k + 1)) ∧
    (scanReceipt apiKey (some file) cats net now pd).2.Nodup := by
  have h := scanReceipt_firstOk apiKey file cats net now pd k p hsz hk hk4 hfails hsucc ht
  refine ⟨h, ?_⟩
  rw [h]
  exact (List.take_sublist _ _).nodup (by decide)

/-- The network oracle of the claim C3 witness: endpoint 1 is down, the
rest respond. -/
def netFailThenOk : String → FetchOutcome := fun u =>
  if u = endpointUrl1 then FetchOutcome.netExn "connection reset"
  else FetchOutcome.ok (payloadOf "hello")

/-- Claim C3 witness: endpoint 1 fails, endpoint 2 succeeds; the result is
built from endpoint 2's payload and exactly two requests are issued. -/
theorem endpoint_loop_first_decodable_success_witness :
    scanReceipt "key0" (some fileFixture) ["groceries"] netFailThenOk 0 pdFixture =
      (resultFromPayload ["groceries"] 0 pdFixture (payloadOf "hello"),
        endpointsToTry.take 2) ∧
    (scanReceipt "key0" (some fileFixture) ["groceries"] netFailThenOk 0 pdFixture).2.Nodup :=
  endpoint_loop_first_decodable_success "key0" fileFixture ["groceries"] netFailThenOk 0
    pdFixture 1 (payloadOf "hello") (by decide) (by decide) (by decide)
    (by intro e he; simp [endpointsToTry] at he; subst he; rfl) rfl rfl

/-- The network oracle of the claim C3 counterexample: endpoint 1 answers
2xx with an undecodable body, the rest respond. -/
def netBadJsonThenOk : String → FetchOutcome := fun u =>
  if u = endpointUrl1 then FetchOutcome.okBadJson "Unexpected token"
  else FetchOutcome.ok (payloadOf "hello")

/-- Claim C3 counterexample: endpoint 1 returns an HTTP success whose body
fails to decode (`response.ok` with `response.json()` throwing).  The loop
does not stop there: it issues a second request and the result is built
from endpoint 2's payload, so the claim that the loop stops at the first
HTTP success and keeps that response is false. -/
theorem endpoint_loop_http_success_not_kept_counterexample :
    netBadJsonThenOk endpointUrl1 = FetchOutcome.okBadJson "Unexpected token" ∧
    (scanReceipt "key0" (some fileFixture) ["groceries"] netBadJsonThenOk 0 pdFixture).2 =
      [endpointUrl1, endpointUrl2] ∧
    (scanReceipt "key0" (some fileFixture) ["groceries"] netBadJsonThenOk 0 pdFixture).1 =
      resultFromPayload ["groceries"] 0 pdFixture (payloadOf "hello") := by
  have h := scanReceipt_firstOk "key0" fileFixture ["groceries"] netBadJsonThenOk 0
    pdFixture 1 (payloadOf "hello") (by decide) (by decide) (by decide)
    (by intro e he; simp [endpointsToTry] at he; subst he; rfl) rfl rfl
  rw [h]
  exact ⟨rfl, rfl, rfl⟩

/-- Claim C4: when every endpoint attempt fails, the returned result is the
outer-handler conversion of the last recorded error: its description
contains that failure's message, its amount is 0 and its category is the
sentinel; all four endpoints were requested. -/
theorem all_endpoints_fail_surfaces_last (apiKey : String) (file : ScanFile)
    (cats : List String) (net : String → FetchOutcome) (now : Rat)
    (pd : String → Option Rat)
    (hsz : file.size ≤ sizeLimit) (hk : apiKey ≠ "")
    (hfails : ∀ e ∈ endpointsToTry, isRecordedFail (net e) = true) :
    scanReceipt apiKey (some file) cats net now pd =
      (errorResult now (failMsg (net endpointUrl4)), endpointsToTry) ∧
    containsSub (scanReceipt apiKey (some file) cats net now pd).1.description
      (failMsg (net endpointUrl4)) = true ∧
    (scanReceipt apiKey (some file) cats net now pd).1.amount = 0 ∧
    (scanReceipt apiKey (some file) cats net now pd).1.category = "other-expense" := by
  have h := scanReceipt_allFail apiKey file cats net now pd hsz hk hfails
  refine ⟨h, ?_, ?_, ?_⟩ <;> rw [h]
  · exact errorResult_contains now _
  · rfl
  · rfl

/-- Claim C4 witness: all four endpoints answer 500; the returned
description carries the constructed failure message. -/
theorem all_endpoints_fail_surfaces_last_witness :
    scanReceipt "key0" (some fileFixture) ["groceries"]
        (fun _ => FetchOutcome.httpFail 500 "Internal Server Error" "overloaded") 0 pdFixture =
      (errorResult 0
        (failMsg (FetchOutcome.httpFail 500 "Internal Server Error" "overloaded")),
        endpointsToTry) ∧
    containsSub (scanReceipt "key0" (some fileFixture) ["groceries"]
        (fun _ => FetchOutcome.httpFail 500 "Internal Server Error" "overloaded") 0
        pdFixture).1.description
      (failMsg (FetchOutcome.httpFail 500 "Internal Server Error" "overloaded")) = true ∧
    (scanReceipt "key0" (some fileFixture) ["groceries"]
        (fun _ => FetchOutcome.httpFail 500 "Internal Server Error" "overloaded") 0
        pdFixture).1.amount = 0 ∧
    (scanReceipt "key0" (some fileFixture) ["groceries"]
        (fun _ => FetchOutcome.httpFail 500 "Internal Server Error" "overloaded") 0
        pdFixture).1.category = "other-expense" :=
  all_endpoints_fail_surfaces_last "key0" fileFixture ["groceries"]
    (fun _ => FetchOutcome.httpFail 500 "Internal Server Error" "overloaded") 0 pdFixture
    (by decide) (by decide) (fun e _ => rfl)

/-- Claim C5: whenever the candidate JSON span of the model response fails
to decode, the decode error is not propagated: the call returns the fixed
default result, whose description carries the format-not-recognized marker
and whose other fields are the defaults (amount 0, current time, the
placeholder merchant, the sentinel category). -/
theorem decode_failure_returns_default (apiKey : String) (file : ScanFile)
    (cats : List String) (net : String → FetchOutcome) (now : Rat)
    (pd : String → Option Rat) (txt : String)
    (hsz : file.size ≤ sizeLimit) (hk : apiKey ≠ "")
    (hnet : net endpointUrl1 = .ok (payloadOf txt))
    (hparse : parseJson (extractCandidate txt) = none) :
    scanReceipt apiKey (some file) cats net now pd =
      (formatFailResult now, [endpointUrl1]) ∧
    containsSub (formatFailResult now).description "format not recognized" = true ∧
    (formatFailResult now).amount = 0 ∧
    (formatFailResult now).date = some now ∧
    (formatFailResult now).merchantName = "Unknown merchant" ∧
    (formatFailResult now).category = "other-expense" := by
  have h := scanReceipt_firstOk apiKey file cats net now pd 0 (payloadOf txt) hsz hk
    (by simp [endpointsToTry]) (by simp) (by simpa [endpointsToTry] using hnet) rfl
  have hres : resultFromPayload cats now pd (payloadOf txt) = formatFailResult now := by
    unfold resultFromPayload
    rw [extractText_payloadOf]
    show processText (splitComma (joinComma cats)) now pd txt = formatFailResult now
    rw [processText_eq_of_parse_fail _ _ _ _ hparse]
  rw [hres] at h
  exact ⟨h, rfl, rfl, rfl, rfl, rfl⟩

/-- The network oracle of the claim C5 witness: a response whose text holds
no JSON at all. -/
def netNotJson : String → FetchOutcome := fun _ =>
  FetchOutcome.ok (payloadOf "Sorry, I cannot read this receipt.")

/-- Claim C5 witness: an undecodable response text yields the fixed default
result. -/
theorem decode_failure_returns_default_witness :
    scanReceipt "key0" (some fileFixture) ["groceries"] netNotJson 3 pdFixture =
      (formatFailResult 3, [endpointUrl1]) ∧
    containsSub (formatFailResult 3).description "format not recognized" = true ∧
    (formatFailResult 3).amount = 0 ∧
    (formatFailResult 3).date = some 3 ∧
    (formatFailResult 3).merchantName = "Unknown merchant" ∧
    (formatFailResult 3).category = "other-expense" :=
  decode_failure_returns_default "key0" fileFixture ["groceries"] netNotJson 3 pdFixture
    "Sorry, I cannot read this receipt." (by decide) (by decide) rfl rfl

/-- Claim C6 (amended): for a successfully decoded payload, an absent or
falsy date field is replaced by the current time; a date field holding a
non-empty string that the engine cannot parse yields an invalid timestamp
(the `Date` constructor output is kept unvalidated), not the current time. -/
theorem date_field_resolution (apiKey : String) (file : ScanFile)
    (cats : List String) (net : String → FetchOutcome) (now : Rat)
    (pd : String → Option Rat) (txt : String) (data : Json)
    (hsz : file.size ≤ sizeLimit) (hk : apiKey ≠ "")
    (hnet : net endpointUrl1 = .ok (payloadOf txt))
    (hparse : parseJson (extractCandidate txt) = some data)
    (hnn : data ≠ Json.null) :
    ((jsProp data "date" = none ∨
        (∃ v, jsProp data "date" = some v ∧ jsTruthy v = false)) →
      (scanReceipt apiKey (some file) cats net now pd).1.date = some now) ∧
    (∀ s, jsProp data "date" = some (Json.str s) → s ≠ "" → pd s = none →
      (scanReceipt apiKey (some file) cats net now pd).1.date = none) := by
  have h := scanReceipt_decoded_fields apiKey file cats net now pd txt data hsz hk
    hnet hparse hnn
  rw [h]
  constructor
  · rintro (hd | ⟨v, hd, hv⟩)
    · show dateField now pd (jsProp data "date") = some now
      rw [hd]
      rfl
    · show dateField now pd (jsProp data "date") = some now
      rw [hd]
      simp [dateField, hv]
  · intro s hd hs hpd
    show dateField now pd (jsProp data "date") = none
    rw [hd]
    have ht : jsTruthy (Json.str s) = true := by simp [jsTruthy, hs]
    simp [dateField, ht, newDateFrom, hpd]

/-- The network oracle of the claim C6 witness: a payload with an amount
and no date field. -/
def netNoDate : String → FetchOutcome := fun _ =>
  FetchOutcome.ok (payloadOf "\x7b\"amount\": 3\x7d")

/-- Claim C6 witness: a decoded payload without a date resolves to the
current time. -/
theorem date_field_resolution_witness :
    (scanReceipt "key0" (some fileFixture) ["groceries"] netNoDate 0 pdFixture).1.date =
      some 0 :=
  (date_field_resolution "key0" fileFixture ["groceries"] netNoDate 0 pdFixture
      "\x7b\"amount\": 3\x7d" (Json.obj [("amount", Json.num 3)])
      (by decide) (by decide) rfl rfl (fun hx => Json.noConfusion hx)).1
    (Or.inl rfl)

/-- The network oracle of the claim C6 counterexample: a payload whose date
field is a truthy string no engine parser accepts. -/
def netBadDate : String → FetchOutcome := fun _ =>
  FetchOutcome.ok (payloadOf "\x7b\"date\": \"garbage\"\x7d")

/-- Claim C6 counterexample: a decoded payload with the unparsable date
string produces an invalid timestamp (modelled as `none`), not the current
time 7, so the returned date is not a valid timestamp and the claimed
replacement by the current time does not happen. -/
theorem date_field_invalid_counterexample :
    pdFixture "garbage" = none ∧
    (scanReceipt "key0" (some fileFixture) ["groceries"] netBadDate 7 pdFixture).1.date =
      none ∧
    (scanReceipt "key0" (some fileFixture) ["groceries"] netBadDate 7 pdFixture).1.date ≠
      some 7 := by
  refine ⟨rfl, rfl, ?_⟩
  intro hcontra
  rw [show (scanReceipt "key0" (some fileFixture) ["groceries"] netBadDate 7
      pdFixture).1.date = none from rfl] at hcontra
  exact Option.noConfusion hcontra

/-- A model response wrapping the receipt JSON in a json-tagged fenced code
block. -/
def fencedTxt : String :=
  "```json\n\x7b\"amount\": 42.5, \"date\": \"2023-12-25\", \"description\": \"Grocery shopping\", \"merchantName\": \"Store\", \"category\": \"groceries\"\x7d\n```"

/-- The network oracle of the claim C7 theorem: every endpoint returns the
fenced response. -/
def netFenced : String → FetchOutcome := fun _ => FetchOutcome.ok (payloadOf fencedTxt)

set_option maxRecDepth 40000 in
/-- Claim C7: a model response wrapping valid JSON in fenced code-block
markers (with or without the json tag) has the markers stripped and the
brace-to-brace span selected as the candidate payload, and the embedded
JSON is parsed into the correct result: the call returns the sanitized
fields of the embedded object. -/
theorem fenced_json_roundtrip :
    extractCandidate fencedTxt =
      "\x7b\"amount\": 42.5, \"date\": \"2023-12-25\", \"description\": \"Grocery shopping\", \"merchantName\": \"Store\", \"category\": \"groceries\"\x7d" ∧
    extractCandidate "``` \x7b\"amount\": 7\x7d ```" = "\x7b\"amount\": 7\x7d" ∧
    scanReceipt "key0" (some fileFixture) ["groceries", "travel"] netFenced 0 pdFixture =
      ({ amount := mkRat 85 2, date := some 1703462400000,
         description := "Grocery shopping", merchantName := "Store",
         category := "groceries" }, [endpointUrl1]) :=
  ⟨rfl, rfl, rfl⟩
